import Mathlib

/-!
Verification of meshmonitor-carrier-outage against its specification.

The detector (src/index.js) and the aggregator (src/aggregator.js) are
shallowly embedded below: pure fragments become Lean functions, the
event-driven aggregator handler becomes an explicit state-passing function,
JavaScript numbers used as counters become `Nat`/`Int`, fractional scores
become `ℚ`, and the fallible `JSON.parse` call becomes an `Except`-returning
step whose parse outcome is an explicit input.  Wall-clock time (`Date.now()`,
`nowIso()`) is an explicit `now` parameter.
-/

namespace CarrierOutage

/-- Provider state vocabulary of the detector (src/index.js). -/
inductive ProvState
  | OK
  | DEGRADED
  | MAJOR_OUTAGE
  | RECOVERED
deriving DecidableEq, Repr

/-- Persisted per-provider record `{ state, failStreak, okStreak, firstSeen }`
(src/index.js, `computePersistedState`).  `firstSeen` is an optional
timestamp; `none` models JS `null`.  Timestamps are abstract `Nat` instants
(the code stores ISO strings produced from the current time). -/
structure PersistedState where
  state : ProvState
  failStreak : Nat
  okStreak : Nat
  firstSeen : Option Nat
deriving DecidableEq, Repr

/-- The defaulted fresh state: `computePersistedState` defaults every missing
field of `prev` (`prev?.state || 'OK'`, `prev?.failStreak || 0`, ...), and
`run` passes `{}` for an unknown provider, so an absent record behaves as
this value. -/
def freshState : PersistedState := ⟨ProvState.OK, 0, 0, none⟩

/-- Embedding of `computePersistedState(prev, currentRawState, failForMajor,
okForRecovery)` (src/index.js lines 164-208), with the call to `nowIso()`
made an explicit `now` parameter. -/
def computePersistedState (prev : PersistedState) (currentRawState : ProvState)
    (failForMajor okForRecovery : Nat) (now : Nat) : PersistedState :=
  if currentRawState ≠ ProvState.OK then
    -- isFail branch: failStreak += 1; okStreak = 0; set firstSeen if unset
    let failStreak := prev.failStreak + 1
    let firstSeen := match prev.firstSeen with
      | none => some now
      | some t => some t
    let st :=
      if currentRawState = ProvState.MAJOR_OUTAGE then
        if failForMajor ≤ failStreak then ProvState.MAJOR_OUTAGE
        else ProvState.DEGRADED
      else ProvState.DEGRADED
    ⟨st, failStreak, 0, firstSeen⟩
  else
    -- OK branch: okStreak += 1; failStreak = 0
    let okStreak := prev.okStreak + 1
    if prev.state ≠ ProvState.OK ∧ okForRecovery ≤ okStreak then
      -- promoted to RECOVERED; firstSeen kept for this cycle
      ⟨ProvState.RECOVERED, 0, okStreak, prev.firstSeen⟩
    else if prev.state = ProvState.RECOVERED then
      ⟨ProvState.OK, 0, okStreak, none⟩
    else if prev.state = ProvState.OK then
      ⟨ProvState.OK, 0, okStreak, none⟩
    else
      -- still in outage/degraded; keep state as-is
      ⟨prev.state, 0, okStreak, prev.firstSeen⟩

/-- After storing the persisted record, `run` clears `firstSeen` when the
confirmed state is RECOVERED (src/index.js lines 341-344). -/
def persistAfterRun (p : PersistedState) : PersistedState :=
  if p.state = ProvState.RECOVERED then { p with firstSeen := none } else p

/-- `clamp01` (src/index.js). -/
def clamp01 (n : ℚ) : ℚ :=
  if n < 0 then 0 else if n > 1 then 1 else n

/-- `scoreToState(score)` (src/index.js): score is the fraction of failing
signals. -/
def scoreToState (score : ℚ) : ProvState :=
  if score = 0 then ProvState.OK
  else if score ≤ 34/100 then ProvState.DEGRADED
  else ProvState.MAJOR_OUTAGE

/-- `confidenceFromSignals(total, failed, controlOk)` (src/index.js lines
125-132). -/
def confidenceFromSignals (total failed : Nat) (controlOk : Bool) : ℚ :=
  if !controlOk then 0
  else if total ≤ 0 then 0
  else clamp01 (min (95/100) (2/10 + ((failed : ℚ) / (total : ℚ)) * (9/10)))

/-- `failFrac = total ? failed / total : 0` (src/index.js, `run`). -/
def failFrac (total failed : Nat) : ℚ :=
  if total ≠ 0 then (failed : ℚ) / (total : ℚ) else 0

/-- The raw state computed in `run` (src/index.js lines 310-318):
`scoreToState(failFrac)`, forced to OK when the control gate failed. -/
def rawStateFor (total failed : Nat) (controlOk : Bool) : ProvState :=
  let r := scoreToState (failFrac total failed)
  if !controlOk then ProvState.OK else r

/-- One provider step of `run` (src/index.js): raw state from the signal
counts, control suppression, then hysteresis. -/
def runStep (prev : PersistedState) (total failed : Nat) (controlOk : Bool)
    (failForMajor okForRecovery : Nat) (now : Nat) : PersistedState :=
  computePersistedState prev (rawStateFor total failed controlOk)
    failForMajor okForRecovery now

/-- Fuel-driven binary logarithm: `log2fuel f n = ⌊log₂ n⌋` whenever
`n ≤ f` (the recursion is structural in the fuel, so it evaluates inside
the kernel, unlike `Nat.log2`). -/
def log2fuel : Nat → Nat → Nat
  | 0, _ => 0
  | fuel + 1, n => if n < 2 then 0 else log2fuel fuel (n / 2) + 1

/-- The significand of the binary64 double nearest `0.67`: the JS literal
`0.67` denotes exactly `mant67 / 2^53 = 0.6700000000000000399...`, slightly
above `67/100`. -/
def mant67 : Nat := 6034823500676465

/-- Round-to-nearest, ties-to-even, of `p` at granularity `2^s`: the
nearest multiple of `2^s` (the high bits kept by an IEEE-754 rounding that
drops `s` low bits of `p`). -/
def rne (p s : Nat) : Nat :=
  let q := p / 2 ^ s
  let r := p % 2 ^ s
  let half := 2 ^ (s - 1)
  (if half < r then q + 1 else if r < half then q else if q % 2 = 0 then q else q + 1) * 2 ^ s

/-- `2^53` times the binary64 product `n * 0.67`: the exact numerator
`n * mant67` when it fits in 53 bits, otherwise rounded to 53 significant
bits (round to nearest, ties to even) as IEEE-754 binary64 multiplication
does. -/
def roundedProd67 (n : Nat) : Nat :=
  let p := n * mant67
  if p < 2 ^ 53 then p else rne p (log2fuel p p - 52)

/-- `Math.ceil(n * 0.67)` of the control gate, computed as JS does in
binary64: the ceiling of the rounded double product.  It agrees with the
exact `⌈67·n/100⌉` at small `n` (e.g. both are 3 at `n = 3` and 67 at
`n = 100`) but first diverges at `n = 1500`: `1500 * 0.67` rounds to
`1005.0000000000001`, whose ceiling is 1006, not 1005. -/
def ceil67 (n : Nat) : Nat := (roundedProd67 n + 2 ^ 53 - 1) / 2 ^ 53

/-- The control gate of `run` (src/index.js lines 277-279):
`controlSignals.length > 0 ? okCount >= max(1, ceil(len*0.67)) : true`,
over the list of per-probe `ok` flags. -/
def controlOkOf (signals : List Bool) : Bool :=
  if 0 < signals.length then
    decide (max 1 (ceil67 signals.length) ≤ signals.count true)
  else true

/-! ## Aggregator (src/aggregator.js) -/

/-- Scope vocabulary of the aggregator. -/
inductive Scope
  | LOCAL
  | STATE
  | NATIONWIDE
deriving DecidableEq, Repr

/-- `scopeRank(scope)` (src/aggregator.js): NATIONWIDE 3, STATE 2, LOCAL 1. -/
def scopeRank : Scope → Nat
  | Scope.NATIONWIDE => 3
  | Scope.STATE => 2
  | Scope.LOCAL => 1

/-- Per-provider scope record `{ scope, since }` (src/aggregator.js);
`since` is an epoch-milliseconds instant (`Date.now()`). -/
structure ScopeState where
  scope : Scope
  since : Int
deriving DecidableEq, Repr

/-- The debounce step of the message handler (src/aggregator.js lines
84-103): compute `finalScope` from the raw classification and the stored
scope, then refresh `since` exactly when the scope changed. -/
def stepScope (prev : ScopeState) (rawScope : Scope) (now : Int)
    (debounceMs : Int) : ScopeState :=
  let finalScope :=
    if scopeRank prev.scope < scopeRank rawScope then
      if debounceMs ≤ now - prev.since then rawScope else prev.scope
    else rawScope
  ⟨finalScope, if finalScope = prev.scope then prev.since else now⟩

/-- JSON scalar values carried by node-status messages.  A field that is
present with JS `null` is `jnull`; an absent field is an absent key (the
`Option` returned by lookup).  ISO timestamp strings are modelled by their
parsed epoch-millisecond value (`jnum`), which is all the handler uses them
for (`Date.parse`). -/
inductive JVal
  | jstr : String → JVal
  | jnum : Int → JVal
  | jbool : Bool → JVal
  | jnull : JVal
deriving DecidableEq, Repr

/-- A JSON object: association list from field name to value (JS objects
have unique keys; lookup takes the first binding). -/
abbrev Obj := List (String × JVal)

/-- `Map.get` / JS property lookup on an association list: the value of the
first binding of `k`, if any. -/
def lookupKey {α : Type} (k : String) : List (String × α) → Option α
  | [] => none
  | (k₁, v) :: rest => if k₁ = k then some v else lookupKey k rest

/-- `Map.set` / keyed update: replace the entry for `k` in place if present,
else append (JS `Map` keeps insertion order, keys unique). -/
def setEntry {α : Type} : List (String × α) → String → α → List (String × α)
  | [], k, v => [(k, v)]
  | (k₁, v₁) :: rest, k, v =>
      if k₁ = k then (k, v) :: rest else (k₁, v₁) :: setEntry rest k v

/-- JS object spread `{ ...old, ...msg }`: every key of `msg` maps to its
`msg` value, every key of `old` not in `msg` keeps its `old` value.  (The
iteration order of overridden keys is not preserved; only lookup semantics
are relied on.) -/
def spreadMerge (old msg : Obj) : Obj :=
  old.filter (fun p => (lookupKey p.1 msg).isNone) ++ msg

/-- `topic.split('/').pop()` (src/aggregator.js): the final `/`-separated
segment of the topic. -/
def lastSegment (topic : String) : String :=
  String.mk (topic.toList.foldl (fun acc c => if c = '/' then [] else acc ++ [c]) [])

/-- `withinWindow(n.ts)` (src/aggregator.js): `ts && (now - Date.parse(ts))
<= windowMs`.  A missing, null or non-timestamp `ts` is falsy / parses to
NaN, so the check fails. -/
def withinWindow (n : Obj) (now windowMs : Int) : Bool :=
  match lookupKey "ts" n with
  | some (JVal.jnum t) => decide (now - t ≤ windowMs)
  | _ => false

/-- The impacted-node filter (src/aggregator.js):
`n.presence === 'OFFLINE' || n.controlOk === false`. -/
def isImpacted (n : Obj) : Bool :=
  lookupKey "presence" n = some (JVal.jstr "OFFLINE")
    || lookupKey "controlOk" n = some (JVal.jbool false)

/-- `n.providerHint || 'unknown'` (src/aggregator.js).  Messages carry the
hint as a string; a falsy hint (absent, null, empty string) falls back to
`"unknown"`. -/
def providerHintOf (n : Obj) : String :=
  match lookupKey "providerHint" n with
  | some (JVal.jstr s) => if s = "" then "unknown" else s
  | _ => "unknown"

/-- Append `n` to the group of provider `p`, creating the group at the end
on first occurrence (`providers[p] = providers[p] || []; providers[p].push(n)`
with `Object.entries` preserving key insertion order). -/
def addToGroup : List (String × List Obj) → String → Obj → List (String × List Obj)
  | [], p, n => [(p, [n])]
  | (p₁, g) :: rest, p, n =>
      if p₁ = p then (p, g ++ [n]) :: rest else (p₁, g) :: addToGroup rest p n

/-- The grouping loop of the handler (src/aggregator.js lines 74-81): scan
the node map in insertion order and group fresh impacted nodes by provider
hint. -/
def impactedByProvider (nodes : List (String × Obj)) (now windowMs : Int) :
    List (String × List Obj) :=
  nodes.foldl
    (fun acc kv =>
      if withinWindow kv.2 now windowMs && isImpacted kv.2 then
        addToGroup acc (providerHintOf kv.2) kv.2
      else acc)
    []

/-- `classify(nodes)` (src/aggregator.js lines 36-51 and 149-158, defaults
`nationwideStatesMin = 3`, `nationwideNodesMin = 5`, `stateMin = 2`), over
the per-node `state` values.  The JS `Map` keyed by `n.state` counts every
value — including `null`/absent — as a key, so the input is the list of
(possibly absent) `state` fields and `dedup` gives the key set. -/
def classify (g : List (Option JVal)) : Scope :=
  let states := g.dedup
  if 3 ≤ states.length ∨ 5 ≤ g.length then Scope.NATIONWIDE
  else if states.any (fun s => 2 ≤ g.count s) then Scope.STATE
  else Scope.LOCAL

/-- The classification rule exactly as the spec words it (section 4.6 /
claim C9): `knownStates` = distinct NON-NULL state values; NATIONWIDE if
`|knownStates| ≥ 3` or `n ≥ 5`, else STATE if some single state value has
at least 2 impacted nodes, else LOCAL.  Stated only to be compared with
`classify`. -/
def classifySpecClaim (g : List (Option JVal)) : Scope :=
  let known := (g.filterMap id).dedup.filter (· ≠ JVal.jnull)
  if 3 ≤ known.length ∨ 5 ≤ g.length then Scope.NATIONWIDE
  else if known.any (fun s => 2 ≤ g.count (some s)) then Scope.STATE
  else Scope.LOCAL

/-- Aggregator in-memory state: the node map and the per-provider scope
map (src/aggregator.js `nodes`, `providerState`). -/
structure AggState where
  nodes : List (String × Obj)
  providerState : List (String × ScopeState)
deriving DecidableEq, Repr

/-- `cfg.windowMs = 10 * 60 * 1000` (src/aggregator.js). -/
def windowMsCfg : Int := 10 * 60 * 1000

/-- `cfg.debounceMs = 90 * 1000` (src/aggregator.js). -/
def debounceMsCfg : Int := 90 * 1000

/-- The aggregator's message handler (src/aggregator.js lines 66-119).
`parsed` is the outcome of `JSON.parse(payload.toString())`: `none` for a
malformed payload, in which case the parse error is thrown and — the handler
having no try/catch — escapes the callback, modelled as `Except.error ()`
(an uncaught exception terminating the process).  On a parsed message the
handler merges the message into the node's entry, regroups impacted nodes,
and runs the debounced scope update for every impacted provider. -/
def handleMessage (st : AggState) (topic : String) (parsed : Option Obj)
    (now : Int) : Except Unit AggState :=
  match parsed with
  | none => Except.error ()
  | some msg =>
      let nodeId := lastSegment topic
      let old := (lookupKey nodeId st.nodes).getD []
      let nodes := setEntry st.nodes nodeId (spreadMerge old msg)
      let groups := impactedByProvider nodes now windowMsCfg
      let pstate := groups.foldl
        (fun ps pg =>
          let prev := (lookupKey pg.1 ps).getD ⟨Scope.LOCAL, now⟩
          setEntry ps pg.1
            (stepScope prev (classify (pg.2.map (fun n => lookupKey "state" n))) now debounceMsCfg))
        st.providerState
      Except.ok ⟨nodes, pstate⟩

/-! ## Theorems -/

/-- C1: the claim says RECOVERED is a one-shot: the OK run after a
RECOVERED run yields plain OK.  On the code, with `okForRecovery = 2` and a
DEGRADED provider one OK run short of recovery, two consecutive OK runs both
yield confirmed state RECOVERED: the `state !== 'OK' && okStreak >=
okForRecovery` branch fires again on the second run because `okStreak` keeps
growing, so the state never settles back to OK. -/
theorem recovered_repeats_on_consecutive_ok_runs :
    (computePersistedState ⟨ProvState.DEGRADED, 0, 1, some 5⟩ ProvState.OK 3 2 9).state
      = ProvState.RECOVERED
    ∧ (computePersistedState
        (persistAfterRun
          (computePersistedState ⟨ProvState.DEGRADED, 0, 1, some 5⟩ ProvState.OK 3 2 9))
        ProvState.OK 3 2 10).state = ProvState.RECOVERED := by
  decide

/-- C5: MAJOR_OUTAGE is entered only on a run whose raw state is
MAJOR_OUTAGE and whose updated failStreak has reached `failForMajor`. -/
theorem major_outage_floor (prev : PersistedState) (R : ProvState)
    (f k now : Nat) (_hf : 1 ≤ f) (hprev : prev.state ≠ ProvState.MAJOR_OUTAGE)
    (h : (computePersistedState prev R f k now).state = ProvState.MAJOR_OUTAGE) :
    R = ProvState.MAJOR_OUTAGE
      ∧ f ≤ (computePersistedState prev R f k now).failStreak := by
  cases R <;> simp only [computePersistedState] at h ⊢ <;> split_ifs at h ⊢ <;> simp_all

/-- C5 witness. -/
theorem major_outage_floor_witness :
    (1 ≤ 3
      ∧ (⟨ProvState.DEGRADED, 2, 0, some 1⟩ : PersistedState).state ≠ ProvState.MAJOR_OUTAGE
      ∧ (computePersistedState ⟨ProvState.DEGRADED, 2, 0, some 1⟩
          ProvState.MAJOR_OUTAGE 3 5 9).state = ProvState.MAJOR_OUTAGE)
    ∧ (ProvState.MAJOR_OUTAGE = ProvState.MAJOR_OUTAGE
      ∧ 3 ≤ (computePersistedState ⟨ProvState.DEGRADED, 2, 0, some 1⟩
          ProvState.MAJOR_OUTAGE 3 5 9).failStreak) :=
  ⟨by decide,
    major_outage_floor ⟨ProvState.DEGRADED, 2, 0, some 1⟩ ProvState.MAJOR_OUTAGE 3 5 9
      (by decide) (by decide) (by decide)⟩

/-- C7: after any single step of the hysteresis machine the two streaks are
mutually exclusive, whatever the input record. -/
theorem streaks_mutually_exclusive (prev : PersistedState) (R : ProvState)
    (f k now : Nat) :
    (0 < (computePersistedState prev R f k now).failStreak →
      (computePersistedState prev R f k now).okStreak = 0)
    ∧ (0 < (computePersistedState prev R f k now).okStreak →
      (computePersistedState prev R f k now).failStreak = 0) := by
  simp only [computePersistedState]
  split_ifs <;> simp

/-- C7 witness. -/
theorem streaks_mutually_exclusive_witness :
    0 < (computePersistedState freshState ProvState.MAJOR_OUTAGE 3 5 0).failStreak
    ∧ (computePersistedState freshState ProvState.MAJOR_OUTAGE 3 5 0).okStreak = 0 :=
  ⟨by decide,
    (streaks_mutually_exclusive freshState ProvState.MAJOR_OUTAGE 3 5 0).1 (by decide)⟩

/-- C6: with a failed control gate the raw state is OK and the confidence is
0 whatever the provider's signal counts; with zero configured signals the
confidence is 0 whatever the control gate says. -/
theorem control_suppression_confidence (total failed : Nat) :
    rawStateFor total failed false = ProvState.OK
    ∧ confidenceFromSignals total failed false = 0
    ∧ ∀ c : Bool, confidenceFromSignals 0 failed c = 0 := by
  refine ⟨rfl, rfl, ?_⟩
  intro c
  cases c <;> rfl

/-- `2 ^ log2fuel f n` never exceeds `n`, whatever the fuel. -/
lemma log2fuel_le (f : Nat) : ∀ n : Nat, 1 ≤ n → 2 ^ log2fuel f n ≤ n := by
  induction f with
  | zero =>
    intro n hn
    simpa [log2fuel] using hn
  | succ f ih =>
    intro n hn
    simp only [log2fuel]
    by_cases h2 : n < 2
    · rw [if_pos h2]
      simpa using hn
    · rw [if_neg h2]
      have ihn := ih (n / 2) (by omega)
      calc 2 ^ (log2fuel f (n / 2) + 1) = 2 ^ log2fuel f (n / 2) * 2 := by ring
      _ ≤ n / 2 * 2 := by omega
      _ ≤ n := by omega

/-- Rounding a value at least one ulp keeps it positive. -/
lemma rne_pos (p s : Nat) (h : 2 ^ s ≤ p) : 1 ≤ rne p s := by
  have hpow : 0 < 2 ^ s := Nat.pow_pos (by norm_num)
  have hq : 1 ≤ p / 2 ^ s := (Nat.one_le_div_iff hpow).mpr h
  simp only [rne]
  split_ifs <;> exact Nat.one_le_iff_ne_zero.mpr (Nat.mul_ne_zero (by omega) (by omega))

/-- The rounded product is positive once there is at least one signal. -/
lemma roundedProd67_pos (n : Nat) (hn : 1 ≤ n) : 1 ≤ roundedProd67 n := by
  have hm : 1 ≤ n * mant67 := by
    have h1 : 1 ≤ mant67 := by norm_num [mant67]
    exact Nat.one_le_iff_ne_zero.mpr (Nat.mul_ne_zero (by omega) (by omega))
  simp only [roundedProd67]
  by_cases h : n * mant67 < 2 ^ 53
  · rw [if_pos h]
    exact hm
  · rw [if_neg h]
    apply rne_pos
    calc 2 ^ (log2fuel (n * mant67) (n * mant67) - 52)
        ≤ 2 ^ log2fuel (n * mant67) (n * mant67) :=
          Nat.pow_le_pow_right (by norm_num) (Nat.sub_le _ _)
    _ ≤ n * mant67 := log2fuel_le (n * mant67) (n * mant67) hm

/-- `max 1 (ceil67 n) = ceil67 n` once there is at least one signal. -/
lemma ceil67_pos (n : Nat) (hn : 0 < n) : max 1 (ceil67 n) = ceil67 n := by
  have h1 : 1 ≤ roundedProd67 n := roundedProd67_pos n hn
  have h2 : 1 ≤ ceil67 n := by
    unfold ceil67
    have e : (2 : Nat) ^ 53 = 9007199254740992 := by norm_num
    simp only [e]
    omega
  omega

/-- C2 counterexample: in binary64 `3 * 0.67` is `2.0100000000000002` and
`Math.ceil` of it is 3, not 2, so with 3 control probes and 2 passing the
gate reports false — the claim says true. -/
theorem control_two_of_three_fails :
    controlOkOf [true, true, false] = false ∧ ceil67 3 = 3 := by
  decide

/-- C2 amended: the empty list yields true; a non-empty list yields true
exactly when the passing count reaches `Math.ceil(n * 0.67)` as computed in
binary64 — with 3 control probes that threshold is 3 (`ceil(2.01...) = 3`),
so both 2 passing and 1 passing yield false; the binary64 threshold agrees
with the exact `⌈67n/100⌉` at `n = 100` (67) but not at `n = 1500`, where
the rounded product `1005.0000000000001` makes it 1006. -/
theorem control_gate_amended :
    (∀ ss : List Bool, ss ≠ [] →
      (controlOkOf ss = true ↔ ceil67 ss.length ≤ ss.count true))
    ∧ controlOkOf [] = true
    ∧ controlOkOf [true, true, false] = false
    ∧ controlOkOf [true, false, false] = false
    ∧ ceil67 3 = 3
    ∧ ceil67 100 = 67
    ∧ ceil67 1500 = 1006 := by
  refine ⟨?_, by decide, by decide, by decide, by decide, by decide, by decide⟩
  intro ss hne
  have hlen : 0 < ss.length := List.length_pos.mpr hne
  unfold controlOkOf
  rw [if_pos hlen, ceil67_pos ss.length hlen]
  exact decide_eq_true_iff

/-- C2 witness: all 3 control probes passing meets the threshold. -/
theorem control_gate_amended_witness :
    ([true, true, true] : List Bool) ≠ []
    ∧ controlOkOf [true, true, true] = true :=
  ⟨by decide,
    (control_gate_amended.1 [true, true, true] (by decide)).mpr (by decide)⟩

/-- C8: an escalating raw classification (strictly higher rank) is accepted
exactly when `debounceMs` has elapsed since the scope last changed, and is
otherwise held back for this cycle; an equal- or lower-ranked raw
classification is reported immediately. -/
theorem scope_debounce_asymmetry (prev : ScopeState) (raw : Scope)
    (now d : Int) :
    (scopeRank prev.scope < scopeRank raw →
      ((d ≤ now - prev.since → (stepScope prev raw now d).scope = raw)
        ∧ (now - prev.since < d → (stepScope prev raw now d).scope = prev.scope)))
    ∧ (scopeRank raw ≤ scopeRank prev.scope →
        (stepScope prev raw now d).scope = raw) := by
  simp only [stepScope]
  constructor
  · intro hlt
    constructor
    · intro hd
      rw [if_pos hlt, if_pos hd]
    · intro hd
      rw [if_pos hlt, if_neg (by omega)]
  · intro hle
    rw [if_neg (by omega)]

/-- C8 witness: a NATIONWIDE raw classification arriving 50 ms after the
last scope change is held at LOCAL; one arriving 100 s later is accepted;
a LOCAL raw classification under a NATIONWIDE stored scope is reported
immediately. -/
theorem scope_debounce_asymmetry_witness :
    (stepScope ⟨Scope.LOCAL, 100⟩ Scope.NATIONWIDE 150 90000).scope = Scope.LOCAL
    ∧ (stepScope ⟨Scope.LOCAL, 100⟩ Scope.NATIONWIDE 100100 90000).scope = Scope.NATIONWIDE
    ∧ (stepScope ⟨Scope.NATIONWIDE, 100⟩ Scope.LOCAL 150 90000).scope = Scope.LOCAL :=
  ⟨((scope_debounce_asymmetry ⟨Scope.LOCAL, 100⟩ Scope.NATIONWIDE 150 90000).1
      (by decide)).2 (by decide),
    ((scope_debounce_asymmetry ⟨Scope.LOCAL, 100⟩ Scope.NATIONWIDE 100100 90000).1
      (by decide)).1 (by decide),
    (scope_debounce_asymmetry ⟨Scope.NATIONWIDE, 100⟩ Scope.LOCAL 150 90000).2
      (by decide)⟩

/-- C3: the aggregator's message handler calls `JSON.parse` with no
try/catch, so a malformed payload makes the parse error escape the handler
(the process terminates on the resulting uncaught exception) instead of
being discarded. -/
theorem malformed_message_throws (st : AggState) (topic : String) (now : Int) :
    handleMessage st topic none now = Except.error () := rfl

/-- Looking up the key just written by `setEntry` yields the new value. -/
lemma lookupKey_setEntry {α : Type} (m : List (String × α)) (k : String) (v : α) :
    lookupKey k (setEntry m k v) = some v := by
  induction m with
  | nil => simp [setEntry, lookupKey]
  | cons p rest ih =>
    obtain ⟨k₁, v₁⟩ := p
    by_cases h : k₁ = k
    · simp [setEntry, h, lookupKey]
    · simp [setEntry, h, lookupKey, ih]

/-- Field-wise content of the JS spread `{ ...old, ...msg }`: the message's
value where the message has the field, the old value otherwise. -/
lemma lookupKey_spreadMerge (old msg : Obj) (k : String) :
    lookupKey k (spreadMerge old msg)
      = (lookupKey k msg).orElse (fun _ => lookupKey k old) := by
  induction old with
  | nil =>
    unfold spreadMerge
    simp only [List.filter_nil, List.nil_append, lookupKey]
    cases lookupKey k msg <;> rfl
  | cons p rest ih =>
    obtain ⟨k₁, v₁⟩ := p
    unfold spreadMerge at ih ⊢
    by_cases hmsg : (lookupKey k₁ msg).isNone
    · rw [List.filter_cons, if_pos hmsg, List.cons_append]
      by_cases hk : k₁ = k
      · subst hk
        simp only [lookupKey, if_pos rfl]
        rw [Option.isNone_iff_eq_none] at hmsg
        rw [hmsg]
        rfl
      · simp only [lookupKey, if_neg hk]
        rw [ih]
    · rw [List.filter_cons, if_neg hmsg]
      rw [ih]
      by_cases hk : k₁ = k
      · subst hk
        rw [Option.isNone_iff_eq_none] at hmsg
        cases hcase : lookupKey k₁ msg with
        | none => exact absurd hcase hmsg
        | some w => simp only [lookupKey, if_pos rfl, hcase]; rfl
      · simp only [lookupKey, if_neg hk]

/-- C4 counterexample: a stored node entry holding field `b` receives a
message carrying only field `a`; after handling, the stored entry still
holds `b`, a field the message does not carry — the update is a merge, not
a plain overwrite. -/
theorem node_update_keeps_stale_field :
    handleMessage ⟨[("n1", [("b", JVal.jnum 2)])], []⟩ "meshmonitor/carrier/local/n1"
        (some [("a", JVal.jnum 3)]) 0
      = Except.ok ⟨[("n1", [("b", JVal.jnum 2), ("a", JVal.jnum 3)])], []⟩
    ∧ lookupKey "b" ([("a", JVal.jnum 3)] : Obj) = none := ⟨rfl, rfl⟩

/-- C4 amended: on every received node-status message the stored entry for
the topic's nodeId becomes the shallow merge of the previous entry with the
message — fields carried by the message take the message's value, and fields
of the previous entry absent from the message survive. -/
theorem node_update_is_shallow_merge :
    (∀ (st : AggState) (topic : String) (msg : Obj) (now : Int),
      ∃ stNew : AggState,
        handleMessage st topic (some msg) now = Except.ok stNew
        ∧ lookupKey (lastSegment topic) stNew.nodes
            = some (spreadMerge ((lookupKey (lastSegment topic) st.nodes).getD []) msg))
    ∧ ∀ (old msg : Obj) (k : String),
        lookupKey k (spreadMerge old msg)
          = (lookupKey k msg).orElse (fun _ => lookupKey k old) := by
  constructor
  · intro st topic msg now
    refine ⟨_, rfl, ?_⟩
    simp only [handleMessage]
    exact lookupKey_setEntry st.nodes (lastSegment topic) _
  · exact lookupKey_spreadMerge

/-- The STATE test of `classify` holds exactly when some state value occurs
at least twice in the group. -/
lemma classify_any_iff (g : List (Option JVal)) :
    (g.dedup.any fun s => decide (2 ≤ g.count s)) = true ↔ ∃ s, 2 ≤ g.count s := by
  rw [List.any_eq_true]
  constructor
  · rintro ⟨s, _, hs⟩
    exact ⟨s, of_decide_eq_true hs⟩
  · rintro ⟨s, hs⟩
    refine ⟨s, ?_, decide_eq_true hs⟩
    rw [List.mem_dedup]
    exact List.count_pos_iff.mp (by omega)

/-- C9 counterexample: in a group of three impacted nodes where one node
has no `state` value, the code's `Map` counts the missing value as a third
distinct key and classifies NATIONWIDE, while the claim's rule (distinct
NON-null states, here 2) yields LOCAL. -/
theorem classify_counts_null_state :
    classify [none, some (JVal.jstr "CA"), some (JVal.jstr "TX")] = Scope.NATIONWIDE
    ∧ classifySpecClaim [none, some (JVal.jstr "CA"), some (JVal.jstr "TX")]
        = Scope.LOCAL := by
  exact ⟨by decide, by decide⟩

/-- C9 amended: `classify` implements the spec's thresholds with
`knownStates` counting every distinct per-node `state` value — a missing or
null state counts as a value of its own rather than being dropped:
NATIONWIDE when there are at least 3 distinct values or at least 5 nodes,
else STATE when some single value occurs at least twice, else LOCAL; and
5 impacted nodes with 5 distinct states classify as NATIONWIDE. -/
theorem classify_characterization :
    (∀ g : List (Option JVal),
      (classify g = Scope.NATIONWIDE ↔ 3 ≤ g.dedup.length ∨ 5 ≤ g.length)
      ∧ (classify g = Scope.STATE ↔
          (g.dedup.length < 3 ∧ g.length < 5) ∧ ∃ s, 2 ≤ g.count s)
      ∧ (classify g = Scope.LOCAL ↔
          (g.dedup.length < 3 ∧ g.length < 5) ∧ ∀ s, g.count s < 2))
    ∧ classify [some (JVal.jstr "CA"), some (JVal.jstr "TX"), some (JVal.jstr "NY"),
        some (JVal.jstr "FL"), some (JVal.jstr "WA")] = Scope.NATIONWIDE := by
  refine ⟨?_, by decide⟩
  intro g
  by_cases h1 : 3 ≤ g.dedup.length ∨ 5 ≤ g.length
  · have hc : classify g = Scope.NATIONWIDE := by
      simp only [classify]
      rw [if_pos h1]
    refine ⟨⟨fun _ => h1, fun _ => hc⟩, ?_, ?_⟩
    · rw [hc]
      constructor
      · intro hx
        exact absurd hx (by decide)
      · rintro ⟨⟨ha, hb⟩, _⟩
        rcases h1 with h | h <;> omega
    · rw [hc]
      constructor
      · intro hx
        exact absurd hx (by decide)
      · rintro ⟨⟨ha, hb⟩, _⟩
        rcases h1 with h | h <;> omega
  · have h1a : g.dedup.length < 3 ∧ g.length < 5 := by
      rw [not_or] at h1
      omega
    by_cases h2 : ∃ s, 2 ≤ g.count s
    · have hc : classify g = Scope.STATE := by
        simp only [classify]
        rw [if_neg h1, if_pos ((classify_any_iff g).mpr h2)]
      refine ⟨?_, ⟨fun _ => ⟨h1a, h2⟩, fun _ => hc⟩, ?_⟩
      · rw [hc]
        exact ⟨fun hx => absurd hx (by decide), fun hx => absurd hx h1⟩
      · rw [hc]
        constructor
        · intro hx
          exact absurd hx (by decide)
        · rintro ⟨_, hall⟩
          obtain ⟨s, hs⟩ := h2
          have := hall s
          omega
    · have hc : classify g = Scope.LOCAL := by
        simp only [classify]
        rw [if_neg h1, if_neg ?hc2]
        case hc2 =>
          intro hx
          exact h2 ((classify_any_iff g).mp hx)
      push_neg at h2
      refine ⟨?_, ?_, ⟨fun _ => ⟨h1a, h2⟩, fun _ => hc⟩⟩
      · rw [hc]
        exact ⟨fun hx => absurd hx (by decide), fun hx => absurd hx h1⟩
      · rw [hc]
        constructor
        · intro hx
          exact absurd hx (by decide)
        · rintro ⟨_, ⟨s, hs⟩⟩
          have := h2 s
          omega

/-- With a non-OK confirmed state and an OK raw state the machine either
promotes to RECOVERED (streak reached) or keeps the state while counting the
streak. -/
lemma computePersistedState_ok_nonOK (s : PersistedState) (f k now : Nat)
    (h : s.state = ProvState.DEGRADED ∨ s.state = ProvState.MAJOR_OUTAGE) :
    computePersistedState s ProvState.OK f k now
      = if k ≤ s.okStreak + 1
        then ⟨ProvState.RECOVERED, 0, s.okStreak + 1, s.firstSeen⟩
        else ⟨s.state, 0, s.okStreak + 1, s.firstSeen⟩ := by
  have hne : s.state ≠ ProvState.OK := by
    rcases h with h | h <;> simp [h]
  have hnr : s.state ≠ ProvState.RECOVERED := by
    rcases h with h | h <;> simp [h]
  simp only [computePersistedState]
  split_ifs <;> simp_all

/-- Iterating control-failed runs (each a forced raw OK) from a degraded or
outaged record with a clean ok-streak reaches RECOVERED exactly when the
streak count arrives at `okForRecovery`. -/
lemma okRuns_reach_recovered (f k now : Nat) :
    ∀ (sigs : List (Nat × Nat)) (s : PersistedState),
      (s.state = ProvState.DEGRADED ∨ s.state = ProvState.MAJOR_OUTAGE) →
      s.okStreak + sigs.length = k → sigs ≠ [] →
      (sigs.foldl (fun t tf => runStep t tf.1 tf.2 false f k now) s).state
        = ProvState.RECOVERED := by
  intro sigs
  induction sigs with
  | nil =>
    intro s _ _ hne
    exact absurd rfl hne
  | cons a rest ih =>
    intro s hst hlen _
    have hstep : runStep s a.1 a.2 false f k now
        = computePersistedState s ProvState.OK f k now := rfl
    cases rest with
    | nil =>
      have hk : k ≤ s.okStreak + 1 := by
        simp only [List.length_cons, List.length_nil] at hlen
        omega
      simp only [List.foldl, hstep,
        computePersistedState_ok_nonOK s f k now hst, if_pos hk]
    | cons b rest2 =>
      simp only [List.foldl, hstep]
      have hk : ¬ k ≤ s.okStreak + 1 := by
        simp only [List.length_cons] at hlen
        omega
      rw [computePersistedState_ok_nonOK s f k now hst, if_neg hk]
      apply ih
      · exact hst
      · show s.okStreak + 1 + (b :: rest2).length = k
        simp only [List.length_cons] at hlen ⊢
        omega
      · exact List.cons_ne_nil b rest2

/-- C10: a run whose control gate failed feeds raw state OK to the
hysteresis machine whatever the provider's own signal results: from any
record with a positive failStreak it zeroes the failStreak and increments
the okStreak; consequently `okForRecovery` consecutive control-failed runs
alone drive a degraded or outaged provider into RECOVERED. -/
theorem control_failure_advances_machine :
    (∀ (prev : PersistedState) (total failed f k now : Nat),
      0 < prev.failStreak →
        (runStep prev total failed false f k now).failStreak = 0
        ∧ (runStep prev total failed false f k now).okStreak = prev.okStreak + 1)
    ∧ (∀ (prev : PersistedState) (sigs : List (Nat × Nat)) (f k now : Nat),
        (prev.state = ProvState.DEGRADED ∨ prev.state = ProvState.MAJOR_OUTAGE) →
        prev.okStreak = 0 → sigs.length = k → 1 ≤ k →
        (sigs.foldl (fun t tf => runStep t tf.1 tf.2 false f k now) prev).state
          = ProvState.RECOVERED) := by
  constructor
  · intro prev total failed f k now _
    have hstep : runStep prev total failed false f k now
        = computePersistedState prev ProvState.OK f k now := rfl
    rw [hstep]
    simp only [computePersistedState]
    split_ifs <;> simp_all
  · intro prev sigs f k now hst hok hlen hk
    apply okRuns_reach_recovered f k now sigs prev hst (by omega)
    intro hnil
    rw [hnil] at hlen
    simp only [List.length_nil] at hlen
    omega

/-- C10 witness: a DEGRADED provider with failStreak 3 under `okForRecovery
= 2`: one control-failed run clears the failStreak; two consecutive
control-failed runs reach RECOVERED. -/
theorem control_failure_advances_machine_witness :
    (0 < (⟨ProvState.DEGRADED, 3, 0, some 7⟩ : PersistedState).failStreak
      ∧ (runStep ⟨ProvState.DEGRADED, 3, 0, some 7⟩ 2 1 false 3 2 100).failStreak = 0
      ∧ (runStep ⟨ProvState.DEGRADED, 3, 0, some 7⟩ 2 1 false 3 2 100).okStreak
          = (⟨ProvState.DEGRADED, 3, 0, some 7⟩ : PersistedState).okStreak + 1)
    ∧ ([((2 : Nat), (1 : Nat)), (2, 1)].foldl
        (fun t tf => runStep t tf.1 tf.2 false 3 2 100)
        ⟨ProvState.DEGRADED, 3, 0, some 7⟩).state = ProvState.RECOVERED :=
  ⟨⟨by decide,
    control_failure_advances_machine.1 ⟨ProvState.DEGRADED, 3, 0, some 7⟩ 2 1 3 2 100
      (by decide)⟩,
    control_failure_advances_machine.2 ⟨ProvState.DEGRADED, 3, 0, some 7⟩
      [(2, 1), (2, 1)] 3 2 100 (Or.inl rfl) rfl rfl (by decide)⟩

end CarrierOutage
